import Mathlib

/-!
Verification of the wave-survival shooter simulation core
(`src/components/GameEngine.tsx` and the engine variants in `src/unnamed/`).

The dynamic quantities of the engine (positions, hit points, damage) are
JavaScript numbers; they are embedded as rationals (`ℚ`).  Frame counters and
ammunition counts are natural numbers in the source and are embedded as `ℕ`.
Angles produced by `Math.atan2` and the unit direction vectors produced by
`Math.cos`/`Math.sin` are transcendental; movement steps therefore take the
computed direction components as explicit parameters.
-/

namespace ZombieCrisis

/-- Enum `WeaponType` from `src/types.ts` restricted to the five weapons that have
entries in `WEAPON_STATS` (`src/constants.ts`). -/
inductive Weapon where
  | pistol
  | shotgun
  | assaultRifle
  | sniper
  | flamethrower
  deriving DecidableEq, Fintype

/-- Enum `EnemyType` from `src/types.ts`. -/
inductive Enemy where
  | normal
  | red
  | mummy
  | exploder
  | spitter
  | boss
  deriving DecidableEq, Fintype

/-- Enum `ItemType` from `src/types.ts`. -/
inductive Item where
  | medkit
  | nuke
  | rapidFire
  | ammo
  | doublePoints
  | shield
  | freeze
  deriving DecidableEq, Fintype

/-- Enum `GameMode` from `src/types.ts`. -/
inductive Mode where
  | campaign
  | endless
  | timeAttack
  | coop
  | deathmatch
  deriving DecidableEq, Fintype

/-- The `'victory' | 'defeat'` reason passed to the `onGameOver` callback. -/
inductive EndSignal where
  | victory
  | defeat
  deriving DecidableEq

/-- One weapon profile from `WEAPON_STATS` (`src/constants.ts`). -/
structure WeaponStats where
  damage : ℚ
  cooldown : ℕ
  speed : ℚ
  spread : ℚ
  clipSize : ℕ
  reloadTime : ℕ
  maxReserve : ℕ
  pierce : ℕ

/-- Table `WEAPON_STATS` (`src/constants.ts`, the variant used by
`src/components/GameEngine.tsx`, which reads all five weapons and the
`pierce` field). -/
def WEAPON_STATS : Weapon → WeaponStats
  | .pistol => ⟨25, 20, 12, 0, 12, 60, 999, 0⟩
  | .shotgun => ⟨15, 50, 10, 3/10, 6, 120, 32, 0⟩
  | .assaultRifle => ⟨18, 8, 14, 1/20, 30, 90, 180, 0⟩
  | .sniper => ⟨150, 70, 25, 0, 5, 150, 20, 3⟩
  | .flamethrower => ⟨3, 4, 7, 1/10, 100, 180, 400, 1⟩

/-- One item profile from `ITEM_STATS` (`src/constants.ts`). -/
structure ItemStats where
  heal : ℚ
  score : ℚ
  chance : ℚ
  duration : ℕ

/-- Table `ITEM_STATS` (`src/constants.ts`). -/
def ITEM_STATS : Item → ItemStats
  | .medkit => ⟨30, 0, 3/100, 0⟩
  | .nuke => ⟨0, 1000, 1/100, 0⟩
  | .rapidFire => ⟨0, 0, 3/100, 300⟩
  | .ammo => ⟨0, 0, 8/100, 0⟩
  | .doublePoints => ⟨0, 0, 2/100, 600⟩
  | .shield => ⟨0, 0, 2/100, 300⟩
  | .freeze => ⟨0, 0, 2/100, 300⟩

/-- The key iteration order of the `ITEM_STATS` object literal
(`Object.keys(ITEM_STATS)` walks insertion order, `src/constants.ts`). -/
def itemOrder : List Item :=
  [.medkit, .nuke, .rapidFire, .ammo, .doublePoints, .shield, .freeze]

/-- One hostile profile from `ENEMY_STATS` (`src/constants.ts`, the variant
with all six enemy types; boss hp 4000). -/
structure EnemyStats where
  hp : ℚ
  speed : ℚ
  score : ℚ
  radius : ℚ

/-- Table `ENEMY_STATS` (`src/constants.ts`). -/
def ENEMY_STATS : Enemy → EnemyStats
  | .normal => ⟨50, 3/2, 100, 15⟩
  | .red => ⟨30, 4, 200, 12⟩
  | .mummy => ⟨200, 4/5, 500, 20⟩
  | .exploder => ⟨40, 3, 300, 18⟩
  | .spitter => ⟨60, 6/5, 400, 16⟩
  | .boss => ⟨4000, 6/5, 5000, 45⟩

/-- Constant `TOTAL_WAVES` (`src/components/GameEngine.tsx`). -/
def TOTAL_WAVES : ℕ := 5

/-- Constant `CANVAS_WIDTH` (`src/constants.ts`). -/
def CANVAS_WIDTH : ℚ := 800

/-- Constant `CANVAS_HEIGHT` (`src/constants.ts`). -/
def CANVAS_HEIGHT : ℚ := 600

/-! ## Pickup weighted draw (`spawnItem`, `src/components/GameEngine.tsx:171-185`) -/

/-- Sum of the configured drop chances of a list of item types. -/
def chanceSum (l : List Item) : ℚ := (l.map fun t => (ITEM_STATS t).chance).sum

/-- The loop body of `spawnItem`: walk the item types accumulating each
type's `chance`; the first type whose accumulated chance exceeds the draw
`rand` is spawned (`if (rand < cumulativeChance) ... break`). -/
def spawnItemGo (rand : ℚ) : List Item → ℚ → Option Item
  | [], _ => none
  | t :: rest, cum =>
      let cum2 := cum + (ITEM_STATS t).chance
      if rand < cum2 then some t else spawnItemGo rand rest cum2

/-- Function `spawnItem` (`src/components/GameEngine.tsx:171-185`): given the uniform
draw `rand = Math.random()`, returns the item type spawned (if any). -/
def spawnItem (rand : ℚ) : Option Item :=
  spawnItemGo rand itemOrder 0

/-! ## Ammo state and reload (`src/components/GameEngine.tsx:187-200, 399-414`) -/

/-- One `{ clip, reserve }` record of the `AmmoState` map. -/
structure AmmoPair where
  clip : ℕ
  reserve : ℕ
  deriving DecidableEq

/-- The per-player ammo/reload state: the `ammoRef` map, the
`currentWeaponRef` and the `reloadTimerRef` of `src/components/GameEngine.tsx`. -/
structure PlayerAmmo where
  ammo : Weapon → AmmoPair
  currentWeapon : Weapon
  reloadTimer : ℕ

/-- Pointwise update of the ammo map at one weapon key. -/
def setAmmo (f : Weapon → AmmoPair) (w : Weapon) (a : AmmoPair) : Weapon → AmmoPair :=
  fun u => if u = w then a else f u

/-- Function `reloadWeapon` (`src/components/GameEngine.tsx:187-200`), parameterized by
the weapon table `WS`: starts the reload timer only if the clip is not full,
there is reserve (or the weapon is the pistol), and no reload is running. -/
def reloadWeaponWith (WS : Weapon → WeaponStats) (s : PlayerAmmo) : PlayerAmmo :=
  let w := s.currentWeapon
  let stats := WS w
  let cur := s.ammo w
  if cur.clip < stats.clipSize ∧ (0 < cur.reserve ∨ w = .pistol) then
    if s.reloadTimer = 0 then { s with reloadTimer := stats.reloadTime } else s
  else s

/-- Function `reloadWeapon` with the repository table `WEAPON_STATS`. -/
def reloadWeapon : PlayerAmmo → PlayerAmmo := reloadWeaponWith WEAPON_STATS

/-- The per-tick reload countdown and completion transfer
(`src/components/GameEngine.tsx:399-414`), parameterized by the weapon table:
decrement the timer; when it reaches zero, the pistol refills its clip fully
without touching the reserve, any other weapon transfers
`min(clipSize - clip, reserve)` rounds from reserve to clip. -/
def reloadTickWith (WS : Weapon → WeaponStats) (s : PlayerAmmo) : PlayerAmmo :=
  if 0 < s.reloadTimer then
    let t := s.reloadTimer - 1
    if t = 0 then
      let w := s.currentWeapon
      let stats := WS w
      let cur := s.ammo w
      if w = .pistol then
        { s with reloadTimer := t, ammo := setAmmo s.ammo w ⟨stats.clipSize, cur.reserve⟩ }
      else
        let needed := stats.clipSize - cur.clip
        let amount := min needed cur.reserve
        { s with reloadTimer := t,
                 ammo := setAmmo s.ammo w ⟨cur.clip + amount, cur.reserve - amount⟩ }
    else { s with reloadTimer := t }
  else s

/-- The reload tick with the repository's `WEAPON_STATS`. -/
def reloadTick : PlayerAmmo → PlayerAmmo := reloadTickWith WEAPON_STATS

/-! ## Hp/ammo mutations of the single-player engine
(`src/components/GameEngine.tsx`), as a small-step system for the bounds
invariant. -/

/-- An entity's hit-point record (player or hostile). -/
structure Ent where
  etype : Enemy
  hp : ℚ
  maxHp : ℚ

/-- The hp/ammo-relevant fragment of the engine state:
`playerRef.current.hp/maxHp`, `ammoRef`, `currentWeaponRef`,
`reloadTimerRef` and `enemiesRef` of `src/components/GameEngine.tsx`. -/
structure SimState where
  playerHp : ℚ
  playerMaxHp : ℚ
  pa : PlayerAmmo
  enemies : List Ent

/-- The initial state: full hp, every clip and reserve at its configured
maximum (`src/components/GameEngine.tsx:50-60, 99-104`), no hostiles. -/
def initSim (maxHp0 : ℚ) : SimState :=
  { playerHp := maxHp0
    playerMaxHp := maxHp0
    pa := { ammo := fun w => ⟨(WEAPON_STATS w).clipSize, (WEAPON_STATS w).maxReserve⟩
            currentWeapon := .pistol
            reloadTimer := 0 }
    enemies := [] }

/-- Every mutation of hp, clip or reserve performed by the game loop of
`src/components/GameEngine.tsx`, as one small step each:
* `reloadStart` — the `reloadWeapon` key handler (lines 187-200, 235-237);
* `reloadProgress` — the per-tick reload countdown/transfer (lines 399-414);
* `shoot` — `currentAmmo.clip--` on firing with a nonempty clip (line 434);
* `weaponSwitch` — `switchWeapon` resets the reload timer (lines 219-227);
* `medkit` — `hp = Math.min(maxHp, hp + heal)` (line 789);
* `ammoPickup` — every reserve topped by twice its clip size, clamped to
  `maxReserve` (lines 798-803);
* `nuke` — every hostile's hp set to 0 (line 792);
* `playerHurt` — contact/spit/explosion damage `hp -= dmg` with `dmg ≥ 0`
  (lines 620-623, 663-667, 702-704);
* `enemyHurt` — bullet or explosion damage to one hostile (lines 671-673, 762);
* `enemyRemove` — `enemiesRef.current.splice(i, 1)` on death (line 677);
* `enemySpawn` — a hostile spawned with `hp = maxHp = stats.hp * mult`,
  `mult ≥ 0` the difficulty/endless multiplier (lines 510-524);
* `minionSpawn` — boss reinforcements with `hp = maxHp = 30` (lines 595-607). -/
inductive Step : SimState → SimState → Prop
  | reloadStart (s : SimState) :
      Step s { s with pa := reloadWeapon s.pa }
  | reloadProgress (s : SimState) :
      Step s { s with pa := reloadTick s.pa }
  | shoot (s : SimState) (h : 0 < (s.pa.ammo s.pa.currentWeapon).clip) :
      Step s { s with pa := { s.pa with ammo := setAmmo s.pa.ammo s.pa.currentWeapon
                                          ⟨(s.pa.ammo s.pa.currentWeapon).clip - 1,
                                           (s.pa.ammo s.pa.currentWeapon).reserve⟩ } }
  | weaponSwitch (s : SimState) (w : Weapon) :
      Step s { s with pa := { s.pa with currentWeapon := w, reloadTimer := 0 } }
  | medkit (s : SimState) :
      Step s { s with playerHp := min s.playerMaxHp (s.playerHp + (ITEM_STATS .medkit).heal) }
  | ammoPickup (s : SimState) :
      Step s { s with pa := { s.pa with ammo := fun w =>
                                          ⟨(s.pa.ammo w).clip,
                                           min (WEAPON_STATS w).maxReserve
                                             ((s.pa.ammo w).reserve + (WEAPON_STATS w).clipSize * 2)⟩ } }
  | nuke (s : SimState) :
      Step s { s with enemies := s.enemies.map fun e => { e with hp := 0 } }
  | playerHurt (s : SimState) (d : ℚ) (hd : 0 ≤ d) :
      Step s { s with playerHp := s.playerHp - d }
  | enemyHurt (s : SimState) (l₁ l₂ : List Ent) (e : Ent) (d : ℚ) (hd : 0 ≤ d)
      (hsplit : s.enemies = l₁ ++ e :: l₂) :
      Step s { s with enemies := l₁ ++ { e with hp := e.hp - d } :: l₂ }
  | enemyRemove (s : SimState) (l₁ l₂ : List Ent) (e : Ent)
      (hsplit : s.enemies = l₁ ++ e :: l₂) :
      Step s { s with enemies := l₁ ++ l₂ }
  | enemySpawn (s : SimState) (t : Enemy) (mult : ℚ) (hm : 0 ≤ mult) :
      Step s { s with enemies :=
        s.enemies ++ [⟨t, (ENEMY_STATS t).hp * mult, (ENEMY_STATS t).hp * mult⟩] }
  | minionSpawn (s : SimState) :
      Step s { s with enemies := s.enemies ++ [⟨.normal, 30, 30⟩] }

/-- States reachable from the initial state by the engine's mutations. -/
def Reach (maxHp0 : ℚ) (s : SimState) : Prop :=
  Relation.ReflTransGen Step (initSim maxHp0) s

/-- No clip exceeds its weapon's clip size and no reserve exceeds its
weapon's maximum reserve. -/
def AmmoBounds (pa : PlayerAmmo) : Prop :=
  ∀ w : Weapon, (pa.ammo w).clip ≤ (WEAPON_STATS w).clipSize ∧
    (pa.ammo w).reserve ≤ (WEAPON_STATS w).maxReserve

/-- The inductive invariant: hp bounded by the recorded maximum for the
player and every hostile, ammo within bounds, and every hostile's recorded
maximum nonnegative (needed because a nuke sets hp to 0). -/
def GoodState (s : SimState) : Prop :=
  (s.playerHp ≤ s.playerMaxHp ∧ ∀ e ∈ s.enemies, e.hp ≤ e.maxHp) ∧
  AmmoBounds s.pa ∧
  ∀ e ∈ s.enemies, 0 ≤ e.maxHp

/-! ## Wave/spawn scheduler (`src/components/GameEngine.tsx:124-139, 291-320`) -/

/-- The `waveStateRef` enumeration. -/
inductive WavePhase where
  | spawning
  | clearing
  | intermission
  deriving DecidableEq

/-- The scheduler state: `waveRef`, `waveStateRef`, `intermissionTimerRef`
and `enemiesToSpawnRef` of `src/components/GameEngine.tsx`. -/
structure WaveSt where
  wave : ℕ
  phase : WavePhase
  intermissionTimer : ℕ
  enemiesToSpawn : ℕ
  deriving DecidableEq

/-- Function `getWaveEnemyCount` (`src/components/GameEngine.tsx:124-129`).
`Math.ceil(baseEnemyCount * 0.5)` on a natural number is `(base + 1) / 2`
in natural division. -/
def getWaveEnemyCount (mode : Mode) (baseEnemyCount : ℕ) (waveIdx : ℕ) : ℕ :=
  if mode = .endless then 10 + waveIdx * 4
  else (baseEnemyCount + 1) / 2 + waveIdx * 4

/-- One tick of the wave state machine
(`src/components/GameEngine.tsx:291-320`).  `enemyCount` is the current
`enemiesRef.current.length`.  The intermission timer is a positive countdown
whenever the phase is `intermission`, so the JS `<= 0` test after the
decrement is the `= 0` test on the predecessor.  Returns the next scheduler
state and the `onGameOver` signal emitted by this block, if any. -/
def waveStep (mode : Mode) (levelId baseCount : ℕ) (enemyCount : ℕ) (s : WaveSt) :
    WaveSt × Option EndSignal :=
  match s.phase with
  | .intermission =>
      let t := s.intermissionTimer - 1
      if t = 0 then
        if mode = .campaign ∧ levelId = 6 ∧ s.wave = 5 then
          ({ s with phase := .spawning, intermissionTimer := t, enemiesToSpawn := 1 }, none)
        else
          ({ s with phase := .spawning, intermissionTimer := t,
                    enemiesToSpawn := getWaveEnemyCount mode baseCount s.wave }, none)
      else ({ s with intermissionTimer := t }, none)
  | .spawning =>
      if s.enemiesToSpawn = 0 ∧ mode ≠ .timeAttack then
        ({ s with phase := .clearing }, none)
      else (s, none)
  | .clearing =>
      if enemyCount = 0 then
        if mode = .endless ∨ s.wave < TOTAL_WAVES then
          ({ s with wave := s.wave + 1, phase := .intermission, intermissionTimer := 180 }, none)
        else (s, some .victory)
      else (s, none)

/-- The state part of a wave-machine tick. -/
def waveStepSt (mode : Mode) (levelId baseCount : ℕ) (enemyCount : ℕ) (s : WaveSt) : WaveSt :=
  (waveStep mode levelId baseCount enemyCount s).1

/-! ## Geometry and hostiles -/

/-- Function `checkRectCollision` (`src/components/GameEngine.tsx:23-29`): nearest
point of the rectangle to the circle centre, compared squared. -/
def checkRectCollision (x y radius : ℚ) (rx ry rw rh : ℚ) : Prop :=
  let closestX := max rx (min x (rx + rw))
  let closestY := max ry (min y (ry + rh))
  (x - closestX) * (x - closestX) + (y - closestY) * (y - closestY) < radius * radius

instance (x y radius rx ry rw rh : ℚ) :
    Decidable (checkRectCollision x y radius rx ry rw rh) := by
  unfold checkRectCollision
  exact inferInstance

/-- An obstacle rectangle (hit points and kind are irrelevant to the claims
settled here). -/
structure Obst where
  x : ℚ
  y : ℚ
  width : ℚ
  height : ℚ

/-- Test `Math.hypot(x1-x2, y1-y2) < rsum`, compared squared (both sides are
nonnegative in every use below). -/
def circleHit (x1 y1 x2 y2 rsum : ℚ) : Prop :=
  (x1 - x2) * (x1 - x2) + (y1 - y2) * (y1 - y2) < rsum * rsum

instance (x1 y1 x2 y2 rsum : ℚ) : Decidable (circleHit x1 y1 x2 y2 rsum) := by
  unfold circleHit
  exact inferInstance

/-- A hostile as mutated by the engine loops: position, radius, hit points,
type, speed, facing angle, the boss `enraged` flag and the spitter
`attackTimer`. -/
structure Zombie where
  x : ℚ
  y : ℚ
  radius : ℚ
  hp : ℚ
  maxHp : ℚ
  etype : Enemy
  speed : ℚ
  angle : ℚ
  enraged : Bool
  attackTimer : ℕ

/-! ## Player bullets vs hostiles (`src/components/GameEngine.tsx:716-777`) -/

/-- A player bullet (`bulletsRef` element). -/
structure BulletSt where
  x : ℚ
  y : ℚ
  vx : ℚ
  vy : ℚ
  damage : ℚ
  radius : ℚ
  duration : ℤ
  pierce : ℕ

/-- The inner hostile-hit loop of one bullet on one tick
(`src/components/GameEngine.tsx:754-776`).  The source iterates `j` from the
highest index down; this recursion processes the tail (higher indices) first.
Every overlapping hostile is damaged while `hitCount < maxHits`; the count at
which the bullet is destroyed is returned.  `b.pierce` itself is never
mutated by this loop, exactly as in the source. -/
def bulletHitLoop (b : BulletSt) (maxHits : ℕ) :
    List Zombie → ℕ → List Zombie × ℕ
  | [], c => ([], c)
  | e :: rest, c =>
      let res := bulletHitLoop b maxHits rest c
      if res.2 < maxHits ∧ circleHit b.x b.y e.x e.y (e.radius + b.radius) then
        ({ e with hp := e.hp - b.damage } :: res.1, res.2 + 1)
      else (e :: res.1, res.2)

/-- One tick of one player bullet (`src/components/GameEngine.tsx:716-777`),
with no obstacle in its path: advance, decrement duration, destroy on
leaving the canvas (duration expiry destroys only flamethrower bullets,
line 722); then run the hostile-hit loop with `maxHits = 1 + pierce`
(line 755) and destroy the bullet iff the count reached `maxHits`. -/
def bulletTick (isFlame : Bool) (b : BulletSt) (zs : List Zombie) :
    Option BulletSt × List Zombie :=
  let b2 : BulletSt := { b with x := b.x + b.vx, y := b.y + b.vy, duration := b.duration - 1 }
  if b2.x < 0 ∨ CANVAS_WIDTH < b2.x ∨ b2.y < 0 ∨ CANVAS_HEIGHT < b2.y
      ∨ (isFlame = true ∧ b2.duration ≤ 0) then
    (none, zs)
  else
    let maxHits := 1 + b2.pierce
    let res := bulletHitLoop b2 maxHits zs 0
    (if maxHits ≤ res.2 then none else some b2, res.1)

/-- Several consecutive ticks of one bullet (a destroyed bullet stays
destroyed; the hostiles keep their accumulated damage). -/
def bulletTicks (isFlame : Bool) : ℕ → Option BulletSt × List Zombie → Option BulletSt × List Zombie
  | 0, st => st
  | n + 1, (ob, zs) =>
      match ob with
      | none => (none, zs)
      | some b => bulletTicks isFlame n (bulletTick isFlame b zs)

/-! ## Player-hostile contact and the defeat signal
(`src/components/GameEngine.tsx:611-638`) -/

/-- The player-side state read and written by the contact-damage block. -/
structure ContactState where
  px : ℚ
  py : ℚ
  pradius : ℚ
  hp : ℚ
  frame : ℕ
  shieldTimer : ℕ
  diffDamage : ℚ

/-- The player-collision body for one hostile
(`src/components/GameEngine.tsx:611-638`): on overlap, an exploder zeroes its
own hp (no direct damage here); otherwise on frames divisible by 30 and with
no shield, the player takes `10 * diffMod.damage` (`30 *` for a boss), and if
`hp <= 0` the engine calls `onGameOver(stats, 'defeat')` — with no `return`
and no latch, so each such call is recorded as one emitted signal. -/
def contactDamage (st : ContactState) (e : Zombie) : ContactState × List EndSignal :=
  if circleHit st.px st.py e.x e.y (st.pradius + e.radius) then
    if e.etype = .exploder then (st, [])
    else if st.frame % 30 = 0 then
      if st.shieldTimer = 0 then
        let dmg := (if e.etype = .boss then 30 else 10) * st.diffDamage
        let st2 := { st with hp := st.hp - dmg }
        (st2, if st2.hp ≤ 0 then [.defeat] else [])
      else (st, [])
    else (st, [])
  else (st, [])

/-- The hostile loop of one tick restricted to the player-collision block
(`for (let i = enemies.length - 1; i >= 0; i--)`): higher indices first,
accumulating every `onGameOver` invocation in order. -/
def enemyContactLoop : ContactState → List Zombie → ContactState × List EndSignal
  | st, [] => (st, [])
  | st, e :: rest =>
      let res := enemyContactLoop st rest
      let res2 := contactDamage res.1 e
      (res2.1, res.2 ++ res2.2)

/-! ## Hostile movement under freeze -/

/-- One hostile's movement on one tick in the single-player engine
(`src/components/GameEngine.tsx:529-589`).  `px, py` is the player position;
`ux, uy` are `Math.cos(moveAngle), Math.sin(moveAngle)` and `ang` is
`moveAngle` itself (transcendental, hence parameters).  A positive freeze
timer freezes every non-boss hostile entirely (lines 532-534).  A spitter
within 300 of the player stops and runs its attack timer (lines 539-560).
Movement tries the full step and slides along the first blocking obstacle
(lines 562-587). -/
def enemyMoveGE (freezeTimer : ℕ) (obstacles : List Obst) (px py ux uy ang : ℚ)
    (e : Zombie) : Zombie :=
  if 0 < freezeTimer ∧ e.etype ≠ .boss then e
  else
    let stops : Prop :=
      e.etype = .spitter ∧ circleHit px py e.x e.y 300
    let speed := if stops then 0 else e.speed
    let e1 :=
      if stops then
        (if 120 < e.attackTimer + 1 then { e with attackTimer := 0 }
         else { e with attackTimer := e.attackTimer + 1 })
      else e
    if 0 < speed then
      let nx := e1.x + ux * speed
      let ny := e1.y + uy * speed
      match obstacles.find? (fun obs =>
          decide (checkRectCollision nx ny e1.radius obs.x obs.y obs.width obs.height)) with
      | some obs =>
          if ¬ checkRectCollision nx e1.y e1.radius obs.x obs.y obs.width obs.height then
            { e1 with x := nx, angle := ang }
          else if ¬ checkRectCollision e1.x ny e1.radius obs.x obs.y obs.width obs.height then
            { e1 with y := ny, angle := ang }
          else { e1 with angle := ang }
      | none => { e1 with x := nx, y := ny, angle := ang }
    else { e1 with angle := ang }

/-- One hostile's movement on one tick in the co-op engine variant of
`src/unnamed/part_003` (lines 1190-1226 of that file): when a living target
exists, the hostile faces it and advances at `speed * 0.5` while the global
freeze timer is positive (line 1206) — freeze halves speed for every hostile,
bosses included — plus a separation push scaled by `0.1`.  `ux, uy` are the
cosine/sine of the pursuit angle and `pushX, pushY` the accumulated
separation vector, all parameters. -/
def enemyMoveP3 (freezeTimer : ℕ) (ux uy pushX pushY : ℚ) (targetAlive : Bool)
    (ang : ℚ) (e : Zombie) : Zombie :=
  if targetAlive = true then
    let spd := if 0 < freezeTimer then e.speed * (1/2) else e.speed
    { e with x := e.x + ux * spd + pushX * (1/10)
             y := e.y + uy * spd + pushY * (1/10)
             angle := ang }
  else e

/-- One hostile's movement on one tick in the co-op engine variant of
`src/unnamed/part_002` (lines 791-818): the whole pursuit/movement block runs
only when the freeze timer is zero AND the hostile is not a boss; a spitter
within 300 of the target stops; the step is cancelled whole if it collides
with any obstacle (no axis slide in this variant). -/
def enemyMoveP2 (freezeTimer : ℕ) (obstacles : List Obst) (px py ux uy ang : ℚ)
    (e : Zombie) : Zombie :=
  if freezeTimer = 0 ∧ e.etype ≠ .boss then
    let stops : Prop := e.etype = .spitter ∧ circleHit px py e.x e.y 300
    let speed := if stops then 0 else e.speed
    let e1 :=
      if stops then
        (if 120 < e.attackTimer + 1 then { e with attackTimer := 0, angle := ang }
         else { e with attackTimer := e.attackTimer + 1, angle := ang })
      else { e with angle := ang }
    if 0 < speed then
      let nx := e1.x + ux * speed
      let ny := e1.y + uy * speed
      if obstacles.any (fun obs =>
          decide (checkRectCollision nx ny e1.radius obs.x obs.y obs.width obs.height)) then
        e1
      else { e1 with x := nx, y := ny }
    else e1
  else e

/-! ## Boss enrage (`src/unnamed/part_002:820-825`) -/

/-- The per-tick boss enrage check (`src/unnamed/part_002:820-825`): a boss
that is not yet enraged and whose hp has dropped strictly below half of its
maximum becomes enraged, with `speed *= 1.6`. -/
def bossEnrageCheck (e : Zombie) : Zombie :=
  if e.etype = .boss ∧ e.enraged = false ∧ e.hp < e.maxHp * (1/2) then
    { e with enraged := true, speed := e.speed * (8/5) }
  else e

/-- The enrage check run over a tick sequence: on each tick the boss's hp is
first updated (by whatever damage it took) to the next value of `hps`, then
the check of `src/unnamed/part_002:820-825` runs. -/
def enrageTrace (e : Zombie) : List ℚ → Zombie
  | [] => e
  | h :: rest => enrageTrace (bossEnrageCheck { e with hp := h }) rest

/-! ## Co-op shared buff timers
(`src/unnamed/part_003:525-528, 1017-1054`; `src/unnamed/part_002:575-580, 869-888`) -/

/-- One co-op player's hit-point record. -/
structure CoopPlayer where
  hp : ℚ
  maxHp : ℚ
  dead : Bool

/-- The co-op engine state relevant to buffs: the player list and the four
buff timers, which are single shared refs (`rapidFireTimerRef`,
`doublePointsTimerRef`, `shieldTimerRef`, `freezeTimerRef`,
`src/unnamed/part_003:525-528`), not per-player fields. -/
structure CoopState where
  players : List CoopPlayer
  rapidFireTimer : ℕ
  doublePointsTimer : ℕ
  shieldTimer : ℕ
  freezeTimer : ℕ

/-- Replace the element at one index of the player list, if present. -/
def modifyAt (f : CoopPlayer → CoopPlayer) : ℕ → List CoopPlayer → List CoopPlayer
  | _, [] => []
  | 0, p :: rest => f p :: rest
  | i + 1, p :: rest => p :: modifyAt f i rest

/-- The pickup-effect branch of the per-player item loop in the co-op engine
(`src/unnamed/part_003:1017-1054`), for the pickup collected by player
`collector`: a medkit heals only the collector (clamped to their own
`maxHp`); each of the four buff pickups (re)starts the corresponding single
shared timer to its configured duration, with no reference to `collector`.
`ammo` tops only the collector's own reserves and `nuke` triggers a central
explosion (lines 1026-1036); neither touches any buff timer, so both leave
this state unchanged. -/
def applyPickupP3 (collector : ℕ) (t : Item) (s : CoopState) : CoopState :=
  match t with
  | .medkit =>
      { s with players := modifyAt
                            (fun p => { p with hp := min p.maxHp (p.hp + (ITEM_STATS .medkit).heal) })
                            collector s.players }
  | .rapidFire => { s with rapidFireTimer := (ITEM_STATS .rapidFire).duration }
  | .doublePoints => { s with doublePointsTimer := (ITEM_STATS .doublePoints).duration }
  | .shield => { s with shieldTimer := (ITEM_STATS .shield).duration }
  | .freeze => { s with freezeTimer := (ITEM_STATS .freeze).duration }
  | .ammo => s
  | .nuke => s

/-- A hostile bullet hitting player `j` in the co-op engine
(`src/unnamed/part_002:877-885`): damage is applied and death flagged only
when the single shared shield timer is zero — whichever player is hit. -/
def enemyBulletHitP2 (s : CoopState) (j : ℕ) (dmg : ℚ) : CoopState :=
  if s.shieldTimer = 0 then
    { s with players := modifyAt
                          (fun p =>
                            let hp2 := p.hp - dmg
                            if hp2 ≤ 0 then { p with hp := hp2, dead := true }
                            else { p with hp := hp2 })
                          j s.players }
  else s

/-- The effective fire cooldown computed inside the per-player update loop of
the co-op engine (`src/unnamed/part_002:579-580`): for every player the
cooldown is `Math.ceil(cooldown / 2)` exactly when the single shared
rapid-fire timer is positive. -/
def effectiveCooldownP2 (s : CoopState) (w : Weapon) : ℕ :=
  if 0 < s.rapidFireTimer then ((WEAPON_STATS w).cooldown + 1) / 2
  else (WEAPON_STATS w).cooldown

/-- The score awarded for a kill in the co-op engine
(`src/unnamed/part_002:849-852`): base score times the difficulty score
multiplier, doubled exactly when the single shared double-points timer is
positive — whoever scored the kill. -/
def killScoreP2 (s : CoopState) (t : Enemy) (diffScore : ℚ) : ℚ :=
  let base := (ENEMY_STATS t).score * diffScore
  if 0 < s.doublePointsTimer then base * 2 else base

/-! ## Concrete scenario data -/

/-- A `NORMAL` hostile at the given position, at its spawn statistics
(difficulty multiplier 1). -/
def normalZombie (zx zy : ℚ) : Zombie :=
  { x := zx, y := zy, radius := 15, hp := 50, maxHp := 50, etype := .normal,
    speed := 3/2, angle := 0, enraged := false, attackTimer := 0 }

/-- A flamethrower-class bullet with `pierce = 1` fired horizontally:
speed 50 per tick keeps consecutive tick positions 50 apart. -/
def pierceBullet : BulletSt :=
  { x := 100, y := 300, vx := 50, vy := 0, damage := 25, radius := 3,
    duration := 1000, pierce := 1 }

/-- Three hostiles placed so that the bullet overlaps exactly one of them on
each of three consecutive ticks. -/
def laneZombies : List Zombie :=
  [normalZombie 150 300, normalZombie 200 300, normalZombie 250 300]

/-- A player at the canvas centre with 5 hp on frame 30 (a contact-damage
frame), shield inactive, difficulty damage multiplier 1. -/
def dyingPlayer : ContactState :=
  { px := 400, py := 300, pradius := 12, hp := 5, frame := 30,
    shieldTimer := 0, diffDamage := 1 }

/-- Two `NORMAL` hostiles both in contact with the player at the canvas
centre. -/
def huggingZombies : List Zombie :=
  [normalZombie 400 300, normalZombie 400 300]

/-- A demonstration weapon table: every weapon reloads a 12-round clip in 3
ticks (used only to instantiate the parameterized reload theorems). -/
def demoWS : Weapon → WeaponStats :=
  fun _ => ⟨25, 20, 12, 0, 12, 3, 999, 0⟩

/-- A shotgun-wielding player mid-reload with an empty 12-round clip and 50
rounds in reserve under `demoWS`. -/
def demoReloading : PlayerAmmo :=
  { ammo := fun _ => ⟨0, 50⟩, currentWeapon := .shotgun, reloadTimer := 3 }

/-- A player 30 ticks into a shotgun reload with the repository's weapon
table. -/
def sampleReloading : PlayerAmmo :=
  { ammo := fun w => ⟨(WEAPON_STATS w).clipSize, (WEAPON_STATS w).maxReserve⟩
    currentWeapon := .shotgun
    reloadTimer := 30 }

/-- A wave-machine state on wave 2 with the full quota spawned. -/
def quotaDone : WaveSt :=
  { wave := 2, phase := .spawning, intermissionTimer := 0, enemiesToSpawn := 0 }

/-- A fresh boss at full hit points (`ENEMY_STATS[BOSS]`,
`src/constants.ts:261`). -/
def freshBoss : Zombie :=
  { x := 400, y := 300, radius := 45, hp := 4000, maxHp := 4000, etype := .boss,
    speed := 6/5, angle := 0, enraged := false, attackTimer := 0 }

/-- A two-player co-op state with no buff active. -/
def coopBase : CoopState :=
  { players := [⟨100, 100, false⟩, ⟨80, 100, false⟩],
    rapidFireTimer := 0, doublePointsTimer := 0, shieldTimer := 0, freezeTimer := 0 }

/-! # Theorems -/

/-! ## Weighted pickup draw -/

theorem chanceSum_cons (a : Item) (l : List Item) :
    chanceSum (a :: l) = (ITEM_STATS a).chance + chanceSum l := by
  simp [chanceSum]

theorem spawnItemGo_eq_some_iff (rand : ℚ) (l : List Item) (acc : ℚ) (t : Item) :
    spawnItemGo rand l acc = some t ↔
      ∃ i : ℕ, l[i]? = some t ∧ rand < acc + chanceSum (l.take (i + 1)) ∧
        ∀ j < i, acc + chanceSum (l.take (j + 1)) ≤ rand := by
  induction l generalizing acc with
  | nil => simp [spawnItemGo]
  | cons a l ih =>
      by_cases hlt : rand < acc + (ITEM_STATS a).chance
      · simp only [spawnItemGo, if_pos hlt]
        constructor
        · intro h
          obtain rfl : a = t := Option.some.inj h
          exact ⟨0, by simp, by simpa [chanceSum_cons, chanceSum] using hlt, by omega⟩
        · rintro ⟨i, hget, _, hall⟩
          match i, hget with
          | 0, hget => simpa using hget
          | i + 1, hget =>
              have h0 := hall 0 (by omega)
              simp [chanceSum_cons, chanceSum] at h0
              exact absurd hlt (not_lt.mpr h0)
      · simp only [spawnItemGo, if_neg hlt, ih (acc + (ITEM_STATS a).chance)]
        constructor
        · rintro ⟨i, hget, hra, hall⟩
          refine ⟨i + 1, by simpa using hget, ?_, ?_⟩
          · simpa [chanceSum_cons, add_assoc] using hra
          · intro j hj
            match j with
            | 0 => simpa [chanceSum_cons, chanceSum] using le_of_not_lt hlt
            | j + 1 =>
                have := hall j (by omega)
                simpa [chanceSum_cons, add_assoc] using this
        · rintro ⟨i, hget, hra, hall⟩
          match i, hget with
          | 0, hget =>
              exfalso
              obtain rfl : a = t := by simpa using hget
              simp [chanceSum_cons, chanceSum] at hra
              exact hlt hra
          | i + 1, hget =>
              refine ⟨i, by simpa using hget, by simpa [chanceSum_cons, add_assoc] using hra, ?_⟩
              intro j hj
              have := hall (j + 1) (by omega)
              simpa [chanceSum_cons, add_assoc] using this

theorem spawnItemGo_eq_none_iff (rand : ℚ) (l : List Item) (acc : ℚ) :
    spawnItemGo rand l acc = none ↔
      ∀ i < l.length, acc + chanceSum (l.take (i + 1)) ≤ rand := by
  induction l generalizing acc with
  | nil => simp [spawnItemGo]
  | cons a l ih =>
      by_cases hlt : rand < acc + (ITEM_STATS a).chance
      · simp only [spawnItemGo, if_pos hlt]
        constructor
        · intro h; exact absurd h (by simp)
        · intro h
          have h0 := h 0 (by simp)
          simp [chanceSum_cons, chanceSum] at h0
          exact absurd hlt (not_lt.mpr h0)
      · simp only [spawnItemGo, if_neg hlt, ih (acc + (ITEM_STATS a).chance)]
        constructor
        · intro h i hi
          match i with
          | 0 => simpa [chanceSum_cons, chanceSum] using le_of_not_lt hlt
          | i + 1 =>
              have := h i (by simpa using hi)
              simpa [chanceSum_cons, add_assoc] using this
        · intro h i hi
          have := h (i + 1) (by simpa using hi)
          simpa [chanceSum_cons, add_assoc] using this

/-- C7: the pickup draw walks the item types in fixed iteration order,
accumulating each type's configured drop chance; it spawns exactly the first
type whose cumulative probability strictly exceeds the uniform draw, and
spawns nothing exactly when the total cumulative probability does not exceed
the draw (e.g. a draw of 0.99 against chances summing to 0.21). -/
theorem C7_pickup_weighted_draw (rand : ℚ) :
    (∀ t : Item, spawnItem rand = some t ↔
        ∃ i : ℕ, itemOrder[i]? = some t ∧ rand < chanceSum (itemOrder.take (i + 1)) ∧
          ∀ j < i, chanceSum (itemOrder.take (j + 1)) ≤ rand) ∧
    (spawnItem rand = none ↔ chanceSum itemOrder ≤ rand) := by
  constructor
  · intro t
    simpa using spawnItemGo_eq_some_iff rand itemOrder 0 t
  · rw [spawnItem, spawnItemGo_eq_none_iff]
    constructor
    · intro h
      have := h 6 (by simp [itemOrder])
      simpa [itemOrder] using this
    · intro h i hi
      simp only [itemOrder, List.length_cons, List.length_nil] at hi
      interval_cases i <;>
        · simp only [itemOrder, chanceSum, ITEM_STATS, List.take, List.map, List.sum_cons,
            List.sum_nil, zero_add] at h ⊢
          norm_num at h ⊢
          linarith

theorem C7_witness :
    (∀ t : Item, spawnItem (99/100) = some t ↔
        ∃ i : ℕ, itemOrder[i]? = some t ∧ (99/100 : ℚ) < chanceSum (itemOrder.take (i + 1)) ∧
          ∀ j < i, chanceSum (itemOrder.take (j + 1)) ≤ (99/100 : ℚ)) ∧
    (spawnItem (99/100) = none ↔ chanceSum itemOrder ≤ (99/100 : ℚ)) :=
  C7_pickup_weighted_draw (99/100)

/-! ## Reload -/

/-- C6: requesting a reload while the reload timer is already running leaves
the whole ammo/reload state unchanged — the timer is neither reset nor
extended and no clip or reserve changes (idempotent no-op). -/
theorem C6_reload_request_noop_while_reloading (s : PlayerAmmo)
    (h : s.reloadTimer ≠ 0) : reloadWeapon s = s := by
  unfold reloadWeapon reloadWeaponWith
  simp only [if_neg h]
  split <;> rfl

theorem C6_witness : reloadWeapon sampleReloading = sampleReloading :=
  C6_reload_request_noop_while_reloading sampleReloading (by decide)

theorem setAmmo_same (f : Weapon → AmmoPair) (w : Weapon) (a : AmmoPair) :
    setAmmo f w a w = a := by
  simp [setAmmo]

theorem reloadTickWith_running (WS : Weapon → WeaponStats) (s : PlayerAmmo)
    (h : 1 < s.reloadTimer) :
    reloadTickWith WS s = { s with reloadTimer := s.reloadTimer - 1 } := by
  simp only [reloadTickWith]
  rw [if_pos (by omega), if_neg (by omega)]

theorem reloadTickWith_iterate (WS : Weapon → WeaponStats) (k : ℕ) :
    ∀ (s : PlayerAmmo), k < s.reloadTimer →
      (reloadTickWith WS)^[k] s = { s with reloadTimer := s.reloadTimer - k } := by
  induction k with
  | zero => intro s _; simp
  | succ k ih =>
      intro s hk
      rw [Function.iterate_succ_apply, reloadTickWith_running WS s (by omega),
        ih { s with reloadTimer := s.reloadTimer - 1 } (by show k < s.reloadTimer - 1; omega)]
      have h2 : s.reloadTimer - 1 - k = s.reloadTimer - (k + 1) := by omega
      show ({ s with reloadTimer := s.reloadTimer - 1 - k } : PlayerAmmo) = _
      rw [h2]

/-- C5: starting from a running reload timer equal to the weapon's reload
duration, exactly that many ticks later the timer is 0 and the completion
transfer has run: the pistol refills its clip fully without decrementing the
reserve; any other weapon transfers `min(clipSize - clip, reserve)` rounds
from reserve to clip — in particular clip size 12, clip 0, reserve 50 yields
clip 12, reserve 38. -/
theorem C5_reload_completion_transfer (WS : Weapon → WeaponStats) (s : PlayerAmmo)
    (hT : s.reloadTimer = (WS s.currentWeapon).reloadTime)
    (hpos : 0 < (WS s.currentWeapon).reloadTime)
    (hclip : (s.ammo s.currentWeapon).clip ≤ (WS s.currentWeapon).clipSize) :
    ((reloadTickWith WS)^[(WS s.currentWeapon).reloadTime] s).reloadTimer = 0 ∧
    (s.currentWeapon = .pistol →
      (((reloadTickWith WS)^[(WS s.currentWeapon).reloadTime] s).ammo s.currentWeapon).clip
          = (WS s.currentWeapon).clipSize ∧
      (((reloadTickWith WS)^[(WS s.currentWeapon).reloadTime] s).ammo s.currentWeapon).reserve
          = (s.ammo s.currentWeapon).reserve) ∧
    (s.currentWeapon ≠ .pistol →
      (((reloadTickWith WS)^[(WS s.currentWeapon).reloadTime] s).ammo s.currentWeapon).clip
          = (s.ammo s.currentWeapon).clip +
              min ((WS s.currentWeapon).clipSize - (s.ammo s.currentWeapon).clip)
                (s.ammo s.currentWeapon).reserve ∧
      (((reloadTickWith WS)^[(WS s.currentWeapon).reloadTime] s).ammo s.currentWeapon).reserve
          = (s.ammo s.currentWeapon).reserve -
              min ((WS s.currentWeapon).clipSize - (s.ammo s.currentWeapon).clip)
                (s.ammo s.currentWeapon).reserve) ∧
    (s.currentWeapon ≠ .pistol → (WS s.currentWeapon).clipSize = 12 →
      (s.ammo s.currentWeapon).clip = 0 → (s.ammo s.currentWeapon).reserve = 50 →
      (((reloadTickWith WS)^[(WS s.currentWeapon).reloadTime] s).ammo s.currentWeapon).clip = 12 ∧
      (((reloadTickWith WS)^[(WS s.currentWeapon).reloadTime] s).ammo s.currentWeapon).reserve
          = 38) := by
  have hmid : (reloadTickWith WS)^[(WS s.currentWeapon).reloadTime - 1] s
      = { s with reloadTimer := 1 } := by
    rw [reloadTickWith_iterate WS ((WS s.currentWeapon).reloadTime - 1) s (by omega)]
    have h2 : s.reloadTimer - ((WS s.currentWeapon).reloadTime - 1) = 1 := by omega
    rw [h2]
  have hiter : (reloadTickWith WS)^[(WS s.currentWeapon).reloadTime] s
      = reloadTickWith WS { s with reloadTimer := 1 } := by
    conv_lhs => rw [show (WS s.currentWeapon).reloadTime
      = ((WS s.currentWeapon).reloadTime - 1) + 1 by omega]
    rw [Function.iterate_succ_apply', hmid]
  by_cases hp : s.currentWeapon = .pistol
  · have hfin : (reloadTickWith WS)^[(WS s.currentWeapon).reloadTime] s
        = { s with reloadTimer := 0,
                   ammo := setAmmo s.ammo s.currentWeapon
                             ⟨(WS s.currentWeapon).clipSize, (s.ammo s.currentWeapon).reserve⟩ } := by
      rw [hiter]
      simp only [reloadTickWith]
      norm_num [hp]
    refine ⟨by rw [hfin], fun _ => ?_, fun hnp => absurd hp hnp, fun hnp => absurd hp hnp⟩
    rw [hfin]
    simp [setAmmo_same]
  · have hfin : (reloadTickWith WS)^[(WS s.currentWeapon).reloadTime] s
        = { s with reloadTimer := 0,
                   ammo := setAmmo s.ammo s.currentWeapon
                             ⟨(s.ammo s.currentWeapon).clip +
                                min ((WS s.currentWeapon).clipSize - (s.ammo s.currentWeapon).clip)
                                  (s.ammo s.currentWeapon).reserve,
                              (s.ammo s.currentWeapon).reserve -
                                min ((WS s.currentWeapon).clipSize - (s.ammo s.currentWeapon).clip)
                                  (s.ammo s.currentWeapon).reserve⟩ } := by
      rw [hiter]
      simp only [reloadTickWith]
      norm_num [hp]
    refine ⟨by rw [hfin], fun hpp => absurd hpp hp, fun _ => ?_, fun _ h12 h0 h50 => ?_⟩
    · rw [hfin]
      simp [setAmmo_same]
    · rw [hfin]
      simp only [setAmmo_same]
      rw [h12, h0, h50]
      norm_num

theorem C5_witness :
    ((reloadTickWith demoWS)^[(demoWS demoReloading.currentWeapon).reloadTime]
        demoReloading).reloadTimer = 0 ∧
    (demoReloading.currentWeapon = .pistol →
      (((reloadTickWith demoWS)^[(demoWS demoReloading.currentWeapon).reloadTime]
          demoReloading).ammo demoReloading.currentWeapon).clip
          = (demoWS demoReloading.currentWeapon).clipSize ∧
      (((reloadTickWith demoWS)^[(demoWS demoReloading.currentWeapon).reloadTime]
          demoReloading).ammo demoReloading.currentWeapon).reserve
          = (demoReloading.ammo demoReloading.currentWeapon).reserve) ∧
    (demoReloading.currentWeapon ≠ .pistol →
      (((reloadTickWith demoWS)^[(demoWS demoReloading.currentWeapon).reloadTime]
          demoReloading).ammo demoReloading.currentWeapon).clip
          = (demoReloading.ammo demoReloading.currentWeapon).clip +
              min ((demoWS demoReloading.currentWeapon).clipSize -
                    (demoReloading.ammo demoReloading.currentWeapon).clip)
                (demoReloading.ammo demoReloading.currentWeapon).reserve ∧
      (((reloadTickWith demoWS)^[(demoWS demoReloading.currentWeapon).reloadTime]
          demoReloading).ammo demoReloading.currentWeapon).reserve
          = (demoReloading.ammo demoReloading.currentWeapon).reserve -
              min ((demoWS demoReloading.currentWeapon).clipSize -
                    (demoReloading.ammo demoReloading.currentWeapon).clip)
                (demoReloading.ammo demoReloading.currentWeapon).reserve) ∧
    (demoReloading.currentWeapon ≠ .pistol →
      (demoWS demoReloading.currentWeapon).clipSize = 12 →
      (demoReloading.ammo demoReloading.currentWeapon).clip = 0 →
      (demoReloading.ammo demoReloading.currentWeapon).reserve = 50 →
      (((reloadTickWith demoWS)^[(demoWS demoReloading.currentWeapon).reloadTime]
          demoReloading).ammo demoReloading.currentWeapon).clip = 12 ∧
      (((reloadTickWith demoWS)^[(demoWS demoReloading.currentWeapon).reloadTime]
          demoReloading).ammo demoReloading.currentWeapon).reserve = 38) :=
  C5_reload_completion_transfer demoWS demoReloading rfl (by decide) (by decide)

/-! ## Hp and ammo bounds invariant -/

theorem enemyStats_hp_nonneg (t : Enemy) : 0 ≤ (ENEMY_STATS t).hp := by
  cases t <;> norm_num [ENEMY_STATS]

theorem reloadWeapon_ammo_eq (pa : PlayerAmmo) : (reloadWeapon pa).ammo = pa.ammo := by
  simp only [reloadWeapon, reloadWeaponWith]
  split <;> (try split) <;> rfl

theorem ammoBounds_reloadTick (pa : PlayerAmmo) (h : AmmoBounds pa) :
    AmmoBounds (reloadTick pa) := by
  intro w
  have hw := h w
  have hcw := h pa.currentWeapon
  simp only [reloadTick, reloadTickWith]
  split
  · split
    · split
      · simp only [setAmmo]
        split
        · next heq =>
            subst heq
            exact ⟨le_refl _, hcw.2⟩
        · exact hw
      · simp only [setAmmo]
        split
        · next heq =>
            subst heq
            constructor
            · dsimp only
              omega
            · dsimp only
              omega
        · exact hw
    · exact hw
  · exact hw

theorem goodState_init (maxHp0 : ℚ) : GoodState (initSim maxHp0) := by
  refine ⟨⟨le_refl _, ?_⟩, ?_, ?_⟩
  · intro e he; simp [initSim] at he
  · intro w; exact ⟨le_refl _, le_refl _⟩
  · intro e he; simp [initSim] at he

theorem goodState_step {s s2 : SimState} (hs : GoodState s) (h : Step s s2) :
    GoodState s2 := by
  obtain ⟨⟨hhp, hehp⟩, hammo, hemax⟩ := hs
  cases h with
  | reloadStart =>
      refine ⟨⟨hhp, hehp⟩, ?_, hemax⟩
      intro w
      rw [reloadWeapon_ammo_eq]
      exact hammo w
  | reloadProgress =>
      exact ⟨⟨hhp, hehp⟩, ammoBounds_reloadTick s.pa hammo, hemax⟩
  | shoot hclip =>
      refine ⟨⟨hhp, hehp⟩, ?_, hemax⟩
      intro w
      have hw := hammo w
      have hcw := hammo s.pa.currentWeapon
      simp only [setAmmo]
      split
      · next heq =>
          subst heq
          refine ⟨?_, ?_⟩ <;> · dsimp only; omega
      · exact hw
  | weaponSwitch w =>
      exact ⟨⟨hhp, hehp⟩, fun u => hammo u, hemax⟩
  | medkit =>
      exact ⟨⟨min_le_left _ _, hehp⟩, hammo, hemax⟩
  | ammoPickup =>
      refine ⟨⟨hhp, hehp⟩, ?_, hemax⟩
      intro w
      exact ⟨(hammo w).1, min_le_left _ _⟩
  | nuke =>
      refine ⟨⟨hhp, ?_⟩, hammo, ?_⟩
      · intro e he
        simp only [List.mem_map] at he
        obtain ⟨e0, he0, rfl⟩ := he
        exact hemax e0 he0
      · intro e he
        simp only [List.mem_map] at he
        obtain ⟨e0, he0, rfl⟩ := he
        exact hemax e0 he0
  | playerHurt d hd =>
      exact ⟨⟨by dsimp only; linarith, hehp⟩, hammo, hemax⟩
  | enemyHurt l₁ l₂ e d hd hsplit =>
      rw [hsplit] at hehp hemax
      refine ⟨⟨hhp, ?_⟩, hammo, ?_⟩
      · intro e2 he2
        simp only [List.mem_append, List.mem_cons] at he2
        rcases he2 with h1 | h2 | h3
        · exact hehp e2 (by simp [h1])
        · subst h2
          have := hehp e (by simp)
          simp only
          linarith
        · exact hehp e2 (by simp [h3])
      · intro e2 he2
        simp only [List.mem_append, List.mem_cons] at he2
        rcases he2 with h1 | h2 | h3
        · exact hemax e2 (by simp [h1])
        · subst h2
          exact hemax e (by simp)
        · exact hemax e2 (by simp [h3])
  | enemyRemove l₁ l₂ e hsplit =>
      rw [hsplit] at hehp hemax
      refine ⟨⟨hhp, ?_⟩, hammo, ?_⟩
      · intro e2 he2
        simp only [List.mem_append] at he2
        rcases he2 with h1 | h2
        · exact hehp e2 (by simp [h1])
        · exact hehp e2 (by simp [h2])
      · intro e2 he2
        simp only [List.mem_append] at he2
        rcases he2 with h1 | h2
        · exact hemax e2 (by simp [h1])
        · exact hemax e2 (by simp [h2])
  | enemySpawn t mult hm =>
      refine ⟨⟨hhp, ?_⟩, hammo, ?_⟩
      · intro e2 he2
        simp only [List.mem_append, List.mem_singleton] at he2
        rcases he2 with h1 | h2
        · exact hehp e2 h1
        · subst h2; exact le_refl _
      · intro e2 he2
        simp only [List.mem_append, List.mem_singleton] at he2
        rcases he2 with h1 | h2
        · exact hemax e2 h1
        · subst h2
          exact mul_nonneg (enemyStats_hp_nonneg t) hm
  | minionSpawn =>
      refine ⟨⟨hhp, ?_⟩, hammo, ?_⟩
      · intro e2 he2
        simp only [List.mem_append, List.mem_singleton] at he2
        rcases he2 with h1 | h2
        · exact hehp e2 h1
        · subst h2; exact le_refl _
      · intro e2 he2
        simp only [List.mem_append, List.mem_singleton] at he2
        rcases he2 with h1 | h2
        · exact hemax e2 h1
        · subst h2; norm_num

theorem goodState_reach (maxHp0 : ℚ) (s : SimState) (h : Reach maxHp0 s) :
    GoodState s := by
  induction h with
  | refl => exact goodState_init maxHp0
  | tail _ hstep ih => exact goodState_step ih hstep

/-- C4: in every state the engine's mutations can reach, no entity's hp
exceeds its recorded maximum hp, no ammo clip exceeds its weapon's clip
size, and no reserve exceeds its weapon's maximum reserve. -/
theorem C4_hp_and_ammo_bounds (maxHp0 : ℚ) (s : SimState) (h : Reach maxHp0 s) :
    s.playerHp ≤ s.playerMaxHp ∧ (∀ e ∈ s.enemies, e.hp ≤ e.maxHp) ∧
    ∀ w : Weapon, (s.pa.ammo w).clip ≤ (WEAPON_STATS w).clipSize ∧
      (s.pa.ammo w).reserve ≤ (WEAPON_STATS w).maxReserve := by
  obtain ⟨⟨h1, h2⟩, h3, _⟩ := goodState_reach maxHp0 s h
  exact ⟨h1, h2, h3⟩

theorem C4_witness :
    (initSim 100).playerHp ≤ (initSim 100).playerMaxHp ∧
    (∀ e ∈ (initSim 100).enemies, e.hp ≤ e.maxHp) ∧
    ∀ w : Weapon, ((initSim 100).pa.ammo w).clip ≤ (WEAPON_STATS w).clipSize ∧
      ((initSim 100).pa.ammo w).reserve ≤ (WEAPON_STATS w).maxReserve :=
  C4_hp_and_ammo_bounds 100 (initSim 100) Relation.ReflTransGen.refl

/-! ## Wave scheduler round trip -/

theorem waveStep_intermission_iterate (mode : Mode) (lid bc ec : ℕ) (k : ℕ) :
    ∀ s : WaveSt, s.phase = .intermission → k < s.intermissionTimer →
      (waveStepSt mode lid bc ec)^[k] s = { s with intermissionTimer := s.intermissionTimer - k } := by
  induction k with
  | zero => intro s _ _; simp
  | succ k ih =>
      intro s hphase hk
      have hstep : waveStepSt mode lid bc ec s = { s with intermissionTimer := s.intermissionTimer - 1 } := by
        simp only [waveStepSt, waveStep]
        split
        · next heq => rw [if_neg (by omega)]
        · next heq => rw [hphase] at heq; exact absurd heq (by simp)
        · next heq => rw [hphase] at heq; exact absurd heq (by simp)
      rw [Function.iterate_succ_apply, hstep,
        ih { s with intermissionTimer := s.intermissionTimer - 1 } hphase
          (by show k < s.intermissionTimer - 1; omega)]
      have h2 : s.intermissionTimer - 1 - k = s.intermissionTimer - (k + 1) := by omega
      show ({ s with intermissionTimer := s.intermissionTimer - 1 - k } : WaveSt) = _
      rw [h2]

/-- C3: once a wave's full quota has been spawned (`enemiesToSpawn = 0`,
phase `SPAWNING`, any mode but time-attack), the next scheduler tick moves to
`CLEARING` with no signal and the wave counter unchanged; the following tick
with zero live hostiles either (not on the final wave of a bounded mode)
moves to `INTERMISSION` with the wave counter incremented by exactly one and
the 180-tick intermission countdown restarted — and the scheduler then stays
in `INTERMISSION` with that same wave number for the next 179 ticks, so the
round trip happens exactly once — or (final wave, bounded mode) emits the
victory signal instead, leaving the state unchanged. -/
theorem C3_wave_roundtrip (mode : Mode) (lid bc n1 : ℕ) (s : WaveSt)
    (hphase : s.phase = .spawning) (hquota : s.enemiesToSpawn = 0)
    (hmode : mode ≠ .timeAttack) :
    (waveStep mode lid bc n1 s).2 = none ∧
    (waveStepSt mode lid bc n1 s).phase = .clearing ∧
    (waveStepSt mode lid bc n1 s).wave = s.wave ∧
    ((mode = .endless ∨ s.wave < TOTAL_WAVES) →
      (waveStep mode lid bc 0 (waveStepSt mode lid bc n1 s)).2 = none ∧
      (waveStepSt mode lid bc 0 (waveStepSt mode lid bc n1 s)).phase = .intermission ∧
      (waveStepSt mode lid bc 0 (waveStepSt mode lid bc n1 s)).wave = s.wave + 1 ∧
      (waveStepSt mode lid bc 0 (waveStepSt mode lid bc n1 s)).intermissionTimer = 180 ∧
      ∀ k < 180,
        ((waveStepSt mode lid bc 0)^[k]
            (waveStepSt mode lid bc 0 (waveStepSt mode lid bc n1 s))).phase = .intermission ∧
        ((waveStepSt mode lid bc 0)^[k]
            (waveStepSt mode lid bc 0 (waveStepSt mode lid bc n1 s))).wave = s.wave + 1) ∧
    ((mode ≠ .endless ∧ TOTAL_WAVES ≤ s.wave) →
      (waveStep mode lid bc 0 (waveStepSt mode lid bc n1 s)).2 = some .victory ∧
      waveStepSt mode lid bc 0 (waveStepSt mode lid bc n1 s) = waveStepSt mode lid bc n1 s) := by
  obtain ⟨wv, ph, it, ets⟩ := s
  dsimp only at hphase hquota
  subst hphase
  subst hquota
  have hstep1 : waveStep mode lid bc n1 ⟨wv, .spawning, it, 0⟩
      = (⟨wv, .clearing, it, 0⟩, none) := by
    simp only [waveStep]
    rw [if_pos ⟨trivial, hmode⟩]
  have hstep1st : waveStepSt mode lid bc n1 ⟨wv, .spawning, it, 0⟩ = ⟨wv, .clearing, it, 0⟩ := by
    simp only [waveStepSt, hstep1]
  refine ⟨by rw [hstep1], by rw [hstep1st], by rw [hstep1st], ?_, ?_⟩
  · intro hcont
    dsimp only at hcont
    have hstep2 : waveStep mode lid bc 0 ⟨wv, .clearing, it, 0⟩
        = (⟨wv + 1, .intermission, 180, 0⟩, none) := by
      simp only [waveStep]
      rw [if_pos trivial, if_pos hcont]
    have hstep2st : waveStepSt mode lid bc 0 ⟨wv, .clearing, it, 0⟩
        = ⟨wv + 1, .intermission, 180, 0⟩ := by
      simp only [waveStepSt, hstep2]
    rw [hstep1st, hstep2st, hstep2]
    refine ⟨rfl, rfl, rfl, rfl, ?_⟩
    intro k hk
    rw [waveStep_intermission_iterate mode lid bc 0 k ⟨wv + 1, .intermission, 180, 0⟩ rfl
      (by show k < 180; omega)]
    exact ⟨rfl, rfl⟩
  · rintro ⟨hne, hge⟩
    dsimp only at hge
    have hcondfail : ¬ (mode = .endless ∨ wv < TOTAL_WAVES) := by
      rintro (h1 | h2)
      · exact hne h1
      · omega
    have hstep2 : waveStep mode lid bc 0 ⟨wv, .clearing, it, 0⟩
        = (⟨wv, .clearing, it, 0⟩, some .victory) := by
      simp only [waveStep]
      rw [if_pos trivial, if_neg hcondfail]
    rw [hstep1st, hstep2]
    exact ⟨rfl, by simp only [waveStepSt, hstep2]⟩

theorem C3_witness :
    (waveStep .campaign 1 12 7 quotaDone).2 = none ∧
    (waveStepSt .campaign 1 12 7 quotaDone).phase = .clearing ∧
    (waveStepSt .campaign 1 12 7 quotaDone).wave = quotaDone.wave ∧
    ((Mode.campaign = .endless ∨ quotaDone.wave < TOTAL_WAVES) →
      (waveStep .campaign 1 12 0 (waveStepSt .campaign 1 12 7 quotaDone)).2 = none ∧
      (waveStepSt .campaign 1 12 0 (waveStepSt .campaign 1 12 7 quotaDone)).phase = .intermission ∧
      (waveStepSt .campaign 1 12 0 (waveStepSt .campaign 1 12 7 quotaDone)).wave
          = quotaDone.wave + 1 ∧
      (waveStepSt .campaign 1 12 0 (waveStepSt .campaign 1 12 7 quotaDone)).intermissionTimer
          = 180 ∧
      ∀ k < 180,
        ((waveStepSt .campaign 1 12 0)^[k]
            (waveStepSt .campaign 1 12 0 (waveStepSt .campaign 1 12 7 quotaDone))).phase
            = .intermission ∧
        ((waveStepSt .campaign 1 12 0)^[k]
            (waveStepSt .campaign 1 12 0 (waveStepSt .campaign 1 12 7 quotaDone))).wave
            = quotaDone.wave + 1) ∧
    ((Mode.campaign ≠ .endless ∧ TOTAL_WAVES ≤ quotaDone.wave) →
      (waveStep .campaign 1 12 0 (waveStepSt .campaign 1 12 7 quotaDone)).2 = some .victory ∧
      waveStepSt .campaign 1 12 0 (waveStepSt .campaign 1 12 7 quotaDone)
          = waveStepSt .campaign 1 12 7 quotaDone) :=
  C3_wave_roundtrip .campaign 1 12 7 quotaDone rfl rfl (by decide)

/-! ## Freeze -/

/-- C8 (amended): on every tick during which the global freeze timer is
positive, in the main engine (`src/components/GameEngine.tsx:532-534`) and
in the `src/unnamed/part_002` variant (lines 791-818) no non-boss hostile
changes position (it is left entirely unchanged); in the main engine a boss
hostile is updated exactly as it would be with no freeze active (full
effective speed), while in part_002 the movement block excludes bosses
altogether, so a boss does not advance whether the freeze timer is positive
or zero.  (In the `src/unnamed/part_003` variant freeze instead halves every
hostile's speed, bosses included, so a frozen non-boss hostile still moves;
see the counterexample.) -/
theorem C8_freeze_behavior (freezeTimer : ℕ) (obstacles : List Obst)
    (px py ux uy ang : ℚ) (e : Zombie) (hf : 0 < freezeTimer) :
    (e.etype ≠ .boss → enemyMoveGE freezeTimer obstacles px py ux uy ang e = e) ∧
    (e.etype = .boss →
      enemyMoveGE freezeTimer obstacles px py ux uy ang e
        = enemyMoveGE 0 obstacles px py ux uy ang e) ∧
    enemyMoveP2 freezeTimer obstacles px py ux uy ang e = e ∧
    (e.etype = .boss → enemyMoveP2 0 obstacles px py ux uy ang e = e) := by
  refine ⟨?_, ?_, ?_, ?_⟩
  · intro hb
    unfold enemyMoveGE
    rw [if_pos ⟨hf, hb⟩]
  · intro hb
    have h1 : ¬ (0 < freezeTimer ∧ e.etype ≠ Enemy.boss) := by simp [hb]
    have h2 : ¬ (0 < (0 : ℕ) ∧ e.etype ≠ Enemy.boss) := by simp
    unfold enemyMoveGE
    rw [if_neg h1, if_neg h2]
  · unfold enemyMoveP2
    rw [if_neg]
    rintro ⟨h0, _⟩
    omega
  · intro hb
    unfold enemyMoveP2
    rw [if_neg]
    rintro ⟨_, hb2⟩
    exact hb2 hb

theorem C8_witness :
    ((normalZombie 50 50).etype ≠ .boss →
      enemyMoveGE 1 [] 400 300 1 0 0 (normalZombie 50 50) = normalZombie 50 50) ∧
    ((normalZombie 50 50).etype = .boss →
      enemyMoveGE 1 [] 400 300 1 0 0 (normalZombie 50 50)
        = enemyMoveGE 0 [] 400 300 1 0 0 (normalZombie 50 50)) ∧
    enemyMoveP2 1 [] 400 300 1 0 0 (normalZombie 50 50) = normalZombie 50 50 ∧
    ((normalZombie 50 50).etype = .boss →
      enemyMoveP2 0 [] 400 300 1 0 0 (normalZombie 50 50) = normalZombie 50 50) :=
  C8_freeze_behavior 1 [] 400 300 1 0 0 (normalZombie 50 50) (by norm_num)

/-- C8 counterexample, refuting both halves of the claim as stated.  In the
co-op engine variant of `src/unnamed/part_003`, a tick with a positive
freeze timer still moves a non-boss hostile (at half speed), refuting "no
non-boss hostile changes position".  In the `src/unnamed/part_002` variant,
a boss with positive speed and a living target straight ahead does not
advance at all — its position is unchanged with the freeze timer positive
and equally with it zero — refuting "boss-category hostiles continue to
advance toward their target at full effective speed". -/
theorem C8_counterexample_frozen_hostile_moves_and_boss_does_not :
    (0 < (1 : ℕ) ∧ (normalZombie 100 300).etype ≠ .boss ∧
      (enemyMoveP3 1 1 0 0 0 true 0 (normalZombie 100 300)).x ≠ (normalZombie 100 300).x) ∧
    (freshBoss.etype = .boss ∧ 0 < freshBoss.speed ∧
      enemyMoveP2 1 [] 100 300 1 0 0 freshBoss = freshBoss ∧
      enemyMoveP2 0 [] 100 300 1 0 0 freshBoss = freshBoss) := by
  refine ⟨⟨by norm_num, by simp [normalZombie], ?_⟩, rfl, by norm_num [freshBoss], ?_, ?_⟩
  · simp only [enemyMoveP3, normalZombie]
    norm_num
  · unfold enemyMoveP2
    rw [if_neg]
    rintro ⟨h0, _⟩
    omega
  · unfold enemyMoveP2
    rw [if_neg]
    rintro ⟨_, hb2⟩
    exact hb2 rfl

/-! ## Boss enrage -/

theorem enrageTrace_of_enraged (l : List ℚ) :
    ∀ e : Zombie, e.enraged = true →
      (enrageTrace e l).enraged = true ∧ (enrageTrace e l).speed = e.speed := by
  induction l with
  | nil => intro e he; exact ⟨he, rfl⟩
  | cons hd tl ih =>
      intro e he
      have hcheck : bossEnrageCheck { e with hp := hd } = { e with hp := hd } := by
        unfold bossEnrageCheck
        rw [if_neg]
        rintro ⟨_, h2, _⟩
        rw [show ({ e with hp := hd } : Zombie).enraged = e.enraged from rfl, he] at h2
        exact Bool.true_eq_false ▸ h2 ▸ rfl
      rw [enrageTrace, hcheck]
      exact ih { e with hp := hd } he

theorem enrageTrace_spec (l : List ℚ) :
    ∀ e : Zombie, e.etype = .boss → e.maxHp = 4000 → e.enraged = false →
      ((enrageTrace e l).enraged = true ↔ ∃ h ∈ l, h < 2000) ∧
      ((∃ h ∈ l, h < 2000) → (enrageTrace e l).speed = e.speed * (8/5)) ∧
      ((¬ ∃ h ∈ l, h < 2000) → (enrageTrace e l).speed = e.speed) := by
  induction l with
  | nil =>
      intro e _ _ he
      refine ⟨?_, ?_, fun _ => rfl⟩
      · simp [enrageTrace, he]
      · rintro ⟨h, hmem, _⟩
        simp at hmem
  | cons hd tl ih =>
      intro e hb hm he
      by_cases hlt : hd < 2000
      · have hguard : bossEnrageCheck { e with hp := hd }
            = { e with hp := hd, enraged := true, speed := e.speed * (8/5) } := by
          unfold bossEnrageCheck
          rw [if_pos]
          refine ⟨hb, he, ?_⟩
          show hd < e.maxHp * (1/2)
          rw [hm]
          norm_num
          linarith
        have hrest := enrageTrace_of_enraged tl
          { e with hp := hd, enraged := true, speed := e.speed * (8/5) } rfl
        rw [enrageTrace, hguard]
        refine ⟨?_, fun _ => ?_, fun hn => absurd ⟨hd, by simp, hlt⟩ hn⟩
        · simp only [hrest.1, true_iff]
          exact ⟨hd, by simp, hlt⟩
        · rw [hrest.2]
      · have hguard : bossEnrageCheck { e with hp := hd } = { e with hp := hd } := by
          unfold bossEnrageCheck
          rw [if_neg]
          rintro ⟨_, _, h3⟩
          rw [show ({ e with hp := hd } : Zombie).hp = hd from rfl,
            show ({ e with hp := hd } : Zombie).maxHp = e.maxHp from rfl, hm] at h3
          norm_num at h3
          exact hlt (by linarith)
        have hrest := ih { e with hp := hd } hb hm he
        rw [enrageTrace, hguard]
        have hex : (∃ h ∈ hd :: tl, h < 2000) ↔ ∃ h ∈ tl, h < 2000 := by
          simp only [List.mem_cons]
          constructor
          · rintro ⟨h, hh | hh, hlt2⟩
            · subst hh; exact absurd hlt2 hlt
            · exact ⟨h, hh, hlt2⟩
          · rintro ⟨h, hh, hlt2⟩
            exact ⟨h, Or.inr hh, hlt2⟩
        rw [hex]
        exact hrest

/-- C9: a boss hostile with `maxHp = 4000` becomes enraged exactly once, on
the first tick on which its hp is strictly below 2000 (half of its maximum):
at every time point of the damage sequence, the enraged flag is set iff some
hp value so far dropped below 2000, and the speed carries the one-time
`*1.6` enrage multiplier exactly when that has happened — it is never
re-applied by later damage. -/
theorem C9_boss_enrage_exactly_once (e : Zombie) (hps : List ℚ) (n : ℕ)
    (hb : e.etype = .boss) (hm : e.maxHp = 4000) (he : e.enraged = false) :
    ((enrageTrace e (hps.take n)).enraged = true ↔ ∃ h ∈ hps.take n, h < 2000) ∧
    ((∃ h ∈ hps.take n, h < 2000) → (enrageTrace e (hps.take n)).speed = e.speed * (8/5)) ∧
    ((¬ ∃ h ∈ hps.take n, h < 2000) → (enrageTrace e (hps.take n)).speed = e.speed) :=
  enrageTrace_spec (hps.take n) e hb hm he

theorem C9_witness :
    ((enrageTrace freshBoss ([2500, 1999, 100].take 3)).enraged = true ↔
      ∃ h ∈ [(2500 : ℚ), 1999, 100].take 3, h < 2000) ∧
    ((∃ h ∈ [(2500 : ℚ), 1999, 100].take 3, h < 2000) →
      (enrageTrace freshBoss ([2500, 1999, 100].take 3)).speed = freshBoss.speed * (8/5)) ∧
    ((¬ ∃ h ∈ [(2500 : ℚ), 1999, 100].take 3, h < 2000) →
      (enrageTrace freshBoss ([2500, 1999, 100].take 3)).speed = freshBoss.speed) :=
  C9_boss_enrage_exactly_once freshBoss [2500, 1999, 100] 3 rfl rfl rfl

/-! ## Global co-op buffs -/

/-- C10: in the co-op engines the rapid-fire, double-score, shield and
freeze buffs are each one global timer, not per-player state: a pickup
collected by either player writes the same single timer (the result does not
depend on the collector index), and while the timers run, enemy-bullet
damage is negated for every player, the fire cooldown is halved (rounded up)
for every player, kill scores are doubled whoever kills, and every hostile
is frozen in place — not only for the collector. -/
theorem C10_coop_buffs_are_global (s : CoopState) (i i2 j : ℕ) (w : Weapon)
    (dmg : ℚ) (t : Enemy) (diffScore : ℚ) (obstacles : List Obst)
    (px py ux uy ang : ℚ) (e : Zombie) :
    (applyPickupP3 i .rapidFire s = applyPickupP3 i2 .rapidFire s ∧
     applyPickupP3 i .doublePoints s = applyPickupP3 i2 .doublePoints s ∧
     applyPickupP3 i .shield s = applyPickupP3 i2 .shield s ∧
     applyPickupP3 i .freeze s = applyPickupP3 i2 .freeze s) ∧
    enemyBulletHitP2 (applyPickupP3 i .shield s) j dmg = applyPickupP3 i .shield s ∧
    effectiveCooldownP2 (applyPickupP3 i .rapidFire s) w = ((WEAPON_STATS w).cooldown + 1) / 2 ∧
    killScoreP2 (applyPickupP3 i .doublePoints s) t diffScore
        = (ENEMY_STATS t).score * diffScore * 2 ∧
    enemyMoveP2 (applyPickupP3 i .freeze s).freezeTimer obstacles px py ux uy ang e = e := by
  refine ⟨⟨rfl, rfl, rfl, rfl⟩, ?_, ?_, ?_, ?_⟩
  · unfold enemyBulletHitP2
    rw [if_neg]
    show ¬ (ITEM_STATS Item.shield).duration = 0
    norm_num [ITEM_STATS]
  · unfold effectiveCooldownP2
    rw [if_pos]
    show 0 < (ITEM_STATS Item.rapidFire).duration
    norm_num [ITEM_STATS]
  · unfold killScoreP2
    rw [if_pos]
    show 0 < (ITEM_STATS Item.doublePoints).duration
    norm_num [ITEM_STATS]
  · unfold enemyMoveP2
    rw [if_neg]
    rintro ⟨h0, _⟩
    rw [show (applyPickupP3 i .freeze s).freezeTimer = (ITEM_STATS Item.freeze).duration
      from rfl] at h0
    norm_num [ITEM_STATS] at h0

theorem C10_witness :
    (applyPickupP3 0 .rapidFire coopBase = applyPickupP3 1 .rapidFire coopBase ∧
     applyPickupP3 0 .doublePoints coopBase = applyPickupP3 1 .doublePoints coopBase ∧
     applyPickupP3 0 .shield coopBase = applyPickupP3 1 .shield coopBase ∧
     applyPickupP3 0 .freeze coopBase = applyPickupP3 1 .freeze coopBase) ∧
    enemyBulletHitP2 (applyPickupP3 0 .shield coopBase) 1 15 = applyPickupP3 0 .shield coopBase ∧
    effectiveCooldownP2 (applyPickupP3 0 .rapidFire coopBase) .pistol
        = ((WEAPON_STATS .pistol).cooldown + 1) / 2 ∧
    killScoreP2 (applyPickupP3 0 .doublePoints coopBase) .normal 1
        = (ENEMY_STATS .normal).score * 1 * 2 ∧
    enemyMoveP2 (applyPickupP3 0 .freeze coopBase).freezeTimer [] 400 300 1 0 0
        (normalZombie 50 50) = normalZombie 50 50 :=
  C10_coop_buffs_are_global coopBase 0 1 1 .pistol 15 .normal 1 [] 400 300 1 0 0
    (normalZombie 50 50)

/-! ## Pierce budget and game-over signal: concrete evaluations -/

/-- C1 (failing input): the per-tick hostile-hit loop of
`src/components/GameEngine.tsx:754-777` restarts `hitCount` at 0 every tick
and never decrements `b.pierce`, so a bullet with `pierce = 1`
(`1 + pierce = 2` permitted hits) that meets one hostile per tick damages
three distinct hostiles over three ticks and is still not destroyed,
its pierce value untouched — contradicting "destroyed after exactly
`1 + pierce` hostiles damaged". -/
theorem C1_pierce_budget_resets_each_tick :
    1 + pierceBullet.pierce = 2 ∧
    ((bulletTicks false 3 (some pierceBullet, laneZombies)).2.map fun z => z.hp)
        = [25, 25, 25] ∧
    ((bulletTicks false 3 (some pierceBullet, laneZombies)).2.map fun z => z.maxHp)
        = [50, 50, 50] ∧
    (bulletTicks false 3 (some pierceBullet, laneZombies)).1
        = some { pierceBullet with x := 250, duration := 997 } := by
  have t1 : bulletTick false pierceBullet laneZombies
      = (some { pierceBullet with x := 150, duration := 999 },
         [{ normalZombie 150 300 with hp := 25 }, normalZombie 200 300,
          normalZombie 250 300]) := by
    norm_num [bulletTick, bulletHitLoop, circleHit, pierceBullet, laneZombies, normalZombie,
      CANVAS_WIDTH, CANVAS_HEIGHT]
  have t2 : bulletTick false { pierceBullet with x := 150, duration := 999 }
        [{ normalZombie 150 300 with hp := 25 }, normalZombie 200 300, normalZombie 250 300]
      = (some { pierceBullet with x := 200, duration := 998 },
         [{ normalZombie 150 300 with hp := 25 }, { normalZombie 200 300 with hp := 25 },
          normalZombie 250 300]) := by
    norm_num [bulletTick, bulletHitLoop, circleHit, pierceBullet, normalZombie,
      CANVAS_WIDTH, CANVAS_HEIGHT]
  have t3 : bulletTick false { pierceBullet with x := 200, duration := 998 }
        [{ normalZombie 150 300 with hp := 25 }, { normalZombie 200 300 with hp := 25 },
         normalZombie 250 300]
      = (some { pierceBullet with x := 250, duration := 997 },
         [{ normalZombie 150 300 with hp := 25 }, { normalZombie 200 300 with hp := 25 },
          { normalZombie 250 300 with hp := 25 }]) := by
    norm_num [bulletTick, bulletHitLoop, circleHit, pierceBullet, normalZombie,
      CANVAS_WIDTH, CANVAS_HEIGHT]
  have hrun : bulletTicks false 3 (some pierceBullet, laneZombies)
      = (some { pierceBullet with x := 250, duration := 997 },
         [{ normalZombie 150 300 with hp := 25 }, { normalZombie 200 300 with hp := 25 },
          { normalZombie 250 300 with hp := 25 }]) := by
    have e1 : bulletTicks false 3 (some pierceBullet, laneZombies)
        = bulletTicks false 2 (bulletTick false pierceBullet laneZombies) := rfl
    rw [e1, t1]
    have e2 : bulletTicks false 2
          (some { pierceBullet with x := 150, duration := 999 },
           [{ normalZombie 150 300 with hp := 25 }, normalZombie 200 300,
            normalZombie 250 300])
        = bulletTicks false 1 (bulletTick false { pierceBullet with x := 150, duration := 999 }
            [{ normalZombie 150 300 with hp := 25 }, normalZombie 200 300,
             normalZombie 250 300]) := rfl
    rw [e2, t2]
    have e3 : bulletTicks false 1
          (some { pierceBullet with x := 200, duration := 998 },
           [{ normalZombie 150 300 with hp := 25 }, { normalZombie 200 300 with hp := 25 },
            normalZombie 250 300])
        = bulletTicks false 0 (bulletTick false { pierceBullet with x := 200, duration := 998 }
            [{ normalZombie 150 300 with hp := 25 }, { normalZombie 200 300 with hp := 25 },
             normalZombie 250 300]) := rfl
    rw [e3, t3]
    rfl
  rw [hrun]
  refine ⟨rfl, ?_, ?_, rfl⟩ <;> simp [normalZombie]

/-- C2 (failing input): in the player-contact block of
`src/components/GameEngine.tsx:611-638` the defeat branch has no `return`
and no latch, so with two hostiles both touching a 5-hp player on a
contact-damage frame (frame 30, no shield, difficulty 1), the
`onGameOver(stats, 'defeat')` callback is invoked twice within the same
tick — the game-over signal is not emitted exactly once. -/
theorem C2_defeat_signaled_twice_in_one_tick :
    (enemyContactLoop dyingPlayer huggingZombies).2 = [.defeat, .defeat] ∧
    (enemyContactLoop dyingPlayer huggingZombies).2.length = 2 := by
  have hrun : (enemyContactLoop dyingPlayer huggingZombies).2 = [.defeat, .defeat] := by
    simp [enemyContactLoop, contactDamage, circleHit, dyingPlayer, huggingZombies, normalZombie]
    norm_num
  exact ⟨hrun, by rw [hrun]; rfl⟩

end ZombieCrisis

